import Mathlib

/-!
Verification of the Resilient Action Execution Engine (action dispatcher,
element-resolution cascade, test-context store, scenario runner) by a shallow
embedding of the Python sources into Lean.

Python dictionaries are modelled as insertion-ordered association lists over a
JSON-like value type `Val`; raised exceptions are modelled with `Option` /
`Except`; wall-clock timestamps (`datetime.now().isoformat()`) are threaded as
explicit `now : String` arguments; the browser, the language-model translator
and the Playwright locator engine are modelled as explicit oracle functions
passed in as parameters (their outcomes per invocation), which is exactly the
information the control flow under verification consumes.
-/

namespace Automator

/-- JSON-like values: the payloads stored in the Python dictionaries. -/
inductive Val where
  | str (s : String)
  | num (n : Int)
  | bool (b : Bool)
  | null
  | list (xs : List Val)
  | dict (xs : List (String × Val))

/-- A Python dict with `Val` entries, as an insertion-ordered association list. -/
abbrev Dict := List (String × Val)

/-- First-binding lookup, the semantics of `d[k]` / `d.get(k)` on a
well-formed (duplicate-free) Python dict. -/
def alookup {α : Type} : List (String × α) → String → Option α
  | [], _ => none
  | (k', v) :: rest, k => if k' = k then some v else alookup rest k

/-- `k in d` in Python. -/
def hasKey {α : Type} (d : List (String × α)) (k : String) : Bool :=
  (alookup d k).isSome

/-- Replace every binding of key `k` by `(k, v)` (a duplicate-free dict has at
most one). -/
def setKey {α : Type} : List (String × α) → String → α → List (String × α)
  | [], _, _ => []
  | (k', v') :: rest, k, v =>
    if k' = k then (k, v) :: setKey rest k v else (k', v') :: setKey rest k v

/-- `d[k] = v` in Python: overwrite in place if the key exists, else append,
preserving insertion order. -/
def aset {α : Type} (d : List (String × α)) (k : String) (v : α) :
    List (String × α) :=
  if hasKey d k then setKey d k v else d ++ [(k, v)]

/-- `d.update(patch)` in Python: assign every binding of `patch`, in order. -/
def dmerge {α : Type} (d patch : List (String × α)) : List (String × α) :=
  patch.foldl (fun a e => aset a e.1 e.2) d

/-- Left-biased option choice (`a` if present, else `b`). -/
def oor {α : Type} (a b : Option α) : Option α :=
  match a with
  | some v => some v
  | none => b

theorem alookup_setKey_ne {α : Type} (d : List (String × α)) (k k' : String)
    (v : α) (h : k' ≠ k) : alookup (setKey d k v) k' = alookup d k' := by
  induction d with
  | nil => rfl
  | cons e rest ih =>
    obtain ⟨k0, v0⟩ := e
    by_cases he : k0 = k
    · simp [setKey, he, alookup, Ne.symm h, ih]
    · by_cases he' : k0 = k'
      · simp [setKey, he, alookup, he', h]
      · simp [setKey, he, alookup, he', ih]

theorem alookup_setKey_self {α : Type} (d : List (String × α)) (k : String)
    (v : α) (h : hasKey d k = true) : alookup (setKey d k v) k = some v := by
  induction d with
  | nil => simp [hasKey, alookup] at h
  | cons e rest ih =>
    obtain ⟨k0, v0⟩ := e
    by_cases he : k0 = k
    · simp [setKey, he, alookup]
    · simp only [setKey, he, if_false, alookup]
      apply ih
      simpa [hasKey, alookup, he] using h

theorem alookup_append_right {α : Type} (d : List (String × α)) (k : String)
    (v : α) (h : hasKey d k = false) :
    alookup (d ++ [(k, v)]) k = some v := by
  induction d with
  | nil => simp [alookup]
  | cons e rest ih =>
    by_cases he : e.1 = k
    · simp [hasKey, alookup, he] at h
    · simp only [List.cons_append, alookup, he, if_false]
      apply ih
      simpa [hasKey, alookup, he] using h

theorem alookup_append_ne {α : Type} (d : List (String × α)) (k k' : String)
    (v : α) (h : k' ≠ k) : alookup (d ++ [(k, v)]) k' = alookup d k' := by
  induction d with
  | nil => simp [alookup, Ne.symm h]
  | cons e rest ih =>
    by_cases he : e.1 = k'
    · simp [alookup, he]
    · simp [alookup, he, ih]

/-- After `d[k] = v`, looking up `k` yields `v`. -/
theorem alookup_aset_self {α : Type} (d : List (String × α)) (k : String)
    (v : α) : alookup (aset d k v) k = some v := by
  unfold aset
  by_cases h : hasKey d k
  · rw [if_pos h]; exact alookup_setKey_self d k v h
  · rw [if_neg h]
    exact alookup_append_right d k v (by simpa using h)

/-- After `d[k] = v`, every other key is unchanged. -/
theorem alookup_aset_ne {α : Type} (d : List (String × α)) (k k' : String)
    (v : α) (h : k' ≠ k) : alookup (aset d k v) k' = alookup d k' := by
  unfold aset
  by_cases hk : hasKey d k
  · rw [if_pos hk]; exact alookup_setKey_ne d k k' v h
  · rw [if_neg hk]; exact alookup_append_ne d k k' v h

theorem alookup_eq_none_of_not_mem {α : Type} (d : List (String × α))
    (k : String) (h : k ∉ d.map Prod.fst) : alookup d k = none := by
  induction d with
  | nil => rfl
  | cons e rest ih =>
    simp only [List.map_cons, List.mem_cons] at h
    push_neg at h
    simp [alookup, Ne.symm h.1, ih h.2]

/-- Lookup after `d.update(patch)`: the patch wins on its own keys, everything
else falls through to `d` (for a duplicate-free patch, as Python dicts are). -/
theorem alookup_dmerge {α : Type} (p : List (String × α)) :
    ∀ (d : List (String × α)), (p.map Prod.fst).Nodup →
      ∀ k, alookup (dmerge d p) k = oor (alookup p k) (alookup d k) := by
  induction p with
  | nil => intro d _ k; rfl
  | cons e rest ih =>
    intro d hnd k
    simp only [List.map_cons, List.nodup_cons] at hnd
    have hstep : dmerge d (e :: rest) = dmerge (aset d e.1 e.2) rest := rfl
    rw [hstep, ih (aset d e.1 e.2) hnd.2 k]
    by_cases hk : e.1 = k
    · subst hk
      rw [alookup_eq_none_of_not_mem rest e.1 hnd.1, alookup_aset_self]
      simp [alookup, oor]
    · rw [alookup_aset_ne d e.1 k e.2 (Ne.symm hk)]
      simp [alookup, hk]

/-! ### Python string primitives -/

/-- The characters Python's default `str.strip()` removes. -/
def pyIsSpace (c : Char) : Bool :=
  c = ' ' || c = '\t' || c = '\n' || c = '\r' || c = '\x0b' || c = '\x0c'

/-- Strip `pyIsSpace` characters from both ends of a character list. -/
def stripList (cs : List Char) : List Char :=
  ((cs.dropWhile pyIsSpace).reverse.dropWhile pyIsSpace).reverse

/-- Python `s.strip()`. -/
def pyStrip (s : String) : String := ⟨stripList s.data⟩

/-- Lowercase one character (ASCII case, which covers every string this
program lowercases). -/
def lowerChar (c : Char) : Char :=
  if 'A' ≤ c ∧ c ≤ 'Z' then Char.ofNat (c.toNat + 32) else c

/-- Python `s.lower()`. -/
def pyLower (s : String) : String := ⟨s.data.map lowerChar⟩

/-- Split a character list at every character satisfying `p`, keeping empty
pieces — the semantics of Python `str.split` with an explicit one-character
separator.  The result is always non-empty; the empty input yields one empty
piece. -/
def splitBy (p : Char → Bool) : List Char → List (List Char)
  | [] => [[]]
  | c :: rest =>
    match splitBy p rest with
    | [] => [[]]
    | l :: ls => if p c then [] :: l :: ls else (c :: l) :: ls

/-- Python `s.split()` with no separator: split on whitespace runs, no empty
pieces. -/
def pySplitWhitespace (s : String) : List String :=
  ((splitBy pyIsSpace s.data).filter (fun g => g ≠ [])).map
    (fun cs => ⟨cs⟩)

/-! ### ActionExecutor (src/action_executor.py)

`execute` is embedded with the handler table abstracted into an oracle
`handlers : String → Nat → Except String Dict`: `handlers kind i` is the
outcome of the `i`-th invocation (0-based) of the handler registered for
`kind` — `Except.error e` models the handler raising an exception with
message `e`, `Except.ok r` models it returning the result dict `r`.  The
`asyncio.sleep` between attempts has no effect on any returned value and is
elided. -/

/-- The keys of `self.action_handlers`, in source order. -/
def knownKinds : List String :=
  ["navigate", "click", "type", "select", "assert", "wait", "hover",
   "screenshot", "scroll", "press", "check", "uncheck", "upload",
   "download", "iframe", "execute_script"]

/-- `action.get('action', '').lower()`: `none` models the `AttributeError`
raised when the value under `"action"` is not a string. -/
def actionKind (action : Dict) : Option String :=
  match alookup action "action" with
  | none => some ""
  | some (Val.str s) => some (pyLower s)
  | some _ => none

/-- The failure dict built on the final failed attempt
(`attempt = i`, so `attempt + 1 = i + 1`). -/
def retryFailDict (action : Dict) (e : String) (i : Nat) : Dict :=
  [("success", Val.bool false), ("error", Val.str e),
   ("action", Val.dict action), ("attempts", Val.num (i + 1))]

/-- The `for attempt in range(self.retry_count)` loop of `execute`, entered at
attempt index `i`.  `none` models Python's implicit `None` return when the
loop body never runs (`retry_count = 0`). -/
def retryLoop (h : Nat → Except String Dict) (action : Dict)
    (retryCount : Nat) (i : Nat) : Option Dict :=
  if _hlt : i < retryCount then
    match h i with
    | Except.ok r => some (aset r "attempts" (Val.num (i + 1)))
    | Except.error e =>
      if i < retryCount - 1 then retryLoop h action retryCount (i + 1)
      else some (retryFailDict action e i)
  else none
termination_by retryCount - i

/-- The unknown-kind failure dict returned before the retry loop. -/
def unknownKindDict (action : Dict) (kind : String) : Dict :=
  [("success", Val.bool false),
   ("error", Val.str ("Unknown action type: " ++ kind)),
   ("action", Val.dict action)]

/-- `ActionExecutor.execute`.  Outer `Except.error` models the uncaught
`AttributeError` from `.lower()` on a non-string kind; `Except.ok none`
models returning Python `None`; `Except.ok (some d)` models returning the
result dict `d`. -/
def execute (handlers : String → Nat → Except String Dict)
    (retryCount : Nat) (action : Dict) : Except String (Option Dict) :=
  match actionKind action with
  | none => Except.error "AttributeError"
  | some kind =>
    if knownKinds.contains kind then
      Except.ok (retryLoop (handlers kind) action retryCount 0)
    else
      Except.ok (some (unknownKindDict action kind))

/-- If invocation `i < retryCount` returns normally and all earlier
invocations from `j` on raise, the loop entered at `j` returns invocation
`i`'s dict with `attempts = i + 1`. -/
theorem retryLoop_ok (h : Nat → Except String Dict) (action : Dict)
    (retryCount : Nat) (i : Nat) (r : Dict) (hi : i < retryCount)
    (hok : h i = Except.ok r) :
    ∀ j, j ≤ i → (∀ l, j ≤ l → l < i → ∃ e, h l = Except.error e) →
      retryLoop h action retryCount j =
        some (aset r "attempts" (Val.num (i + 1))) := by
  have hstep : ∀ j, j ≤ i →
      (∀ l, j ≤ l → l < i → ∃ e, h l = Except.error e) →
      i - j ≤ i →
      retryLoop h action retryCount j =
        some (aset r "attempts" (Val.num (i + 1))) := by
    intro j hj
    generalize hfuel : i - j = fuel
    induction fuel generalizing j with
    | zero =>
      intro _ _
      have : j = i := by omega
      subst this
      unfold retryLoop
      rw [dif_pos hi, hok]
    | succ n ih =>
      intro herr _
      have hji : j < i := by omega
      obtain ⟨e, he⟩ := herr j le_rfl hji
      unfold retryLoop
      rw [dif_pos (by omega : j < retryCount), he]
      dsimp only
      rw [if_pos (by omega : j < retryCount - 1)]
      exact ih (j + 1) (by omega) (by omega)
        (fun l hl hl' => herr l (by omega) hl') (by omega)
  intro j hj herr
  exact hstep j hj herr (by omega)

/-- If every invocation from `j` up to `retryCount` raises, the loop entered
at `j < retryCount` returns the failure dict carrying the last fault's
message and `attempts = retryCount`. -/
theorem retryLoop_allFail (h : Nat → Except String Dict) (action : Dict)
    (retryCount : Nat) (msgs : Nat → String)
    (herr : ∀ l, l < retryCount → h l = Except.error (msgs l)) :
    ∀ j, j < retryCount →
      retryLoop h action retryCount j =
        some (retryFailDict action (msgs (retryCount - 1)) (retryCount - 1)) := by
  intro j hj
  have hstep : ∀ fuel j, j < retryCount → retryCount - 1 - j = fuel →
      retryLoop h action retryCount j =
        some (retryFailDict action (msgs (retryCount - 1)) (retryCount - 1)) := by
    intro fuel
    induction fuel with
    | zero =>
      intro j hj hfuel
      have : j = retryCount - 1 := by omega
      subst this
      unfold retryLoop
      rw [dif_pos hj, herr _ hj]
      dsimp only
      rw [if_neg (by omega : ¬ retryCount - 1 < retryCount - 1)]
    | succ n ih =>
      intro j hj hfuel
      unfold retryLoop
      rw [dif_pos hj, herr _ hj]
      dsimp only
      rw [if_pos (by omega : j < retryCount - 1)]
      exact ih (j + 1) (by omega) (by omega)
  exact hstep (retryCount - 1 - j) j hj rfl

/-! ### Element resolver (`ActionExecutor._find_element`)

The Playwright page is abstracted into a `PageModel`: `strategyCount t i` is
the outcome of `strategy().count()` for the `i`-th entry (0-based) of the 14
strategy lambdas built for target `t` — `Except.error ()` models the strategy
(or its count) raising, `Except.ok n` a count of `n`.  `hasTextCount w` is
the same for the fallback locator built from a description word `w`.  The
resolved element is identified by which query produced it (`locator.first` of
that query). -/

structure PageModel where
  strategyCount : String → Nat → Except Unit Nat
  hasTextCount : String → Except Unit Nat

/-- The strategy list of `_find_element` has 14 entries. -/
def numStrategies : Nat := 14

/-- The element handle returned by `_find_element`: the first match of the
`i`-th strategy's locator, or of the word-fallback locator for `w`. -/
inductive Elem where
  | strat (i : Nat)
  | word (w : String)

/-- Whether the cascade takes strategy `i`: its count call returned normally
with a positive count.  A strategy that raises counts as no match. -/
def strategyMatches (p : PageModel) (target : String) (i : Nat) : Bool :=
  match p.strategyCount target i with
  | Except.ok n => decide (0 < n)
  | Except.error _ => false

/-- The `for strategy in strategies` loop, entered at strategy index `i`:
index of the first matching strategy from `i` on, if any. -/
def scanStrategies (p : PageModel) (target : String) (i : Nat) : Option Nat :=
  if _h : i < numStrategies then
    if strategyMatches p target i then some i
    else scanStrategies p target (i + 1)
  else none
termination_by numStrategies - i

/-- Whether the description-word fallback takes word `w`. -/
def wordMatches (p : PageModel) (w : String) : Bool :=
  match p.hasTextCount w with
  | Except.ok n => decide (0 < n)
  | Except.error _ => false

/-- The `for word in desc_words` loop: first matching word, if any. -/
def scanWords (p : PageModel) : List String → Option String
  | [] => none
  | w :: ws => if wordMatches p w then some w else scanWords p ws

/-- `description.lower().split()` filtered by `len(word) > 3`, behind the
`if description:` truthiness guard. -/
def descWords (description : String) : List String :=
  if description ≠ "" then
    (pySplitWhitespace (pyLower description)).filter (fun w => 3 < w.length)
  else []

/-- `ActionExecutor._find_element`: the strategy cascade, then the
description-word fallback, then the raised "Could not find element" fault. -/
def find_element (p : PageModel) (target description : String) :
    Except String Elem :=
  match scanStrategies p target 0 with
  | some i => Except.ok (Elem.strat i)
  | none =>
    match scanWords p (descWords description) with
    | some w => Except.ok (Elem.word w)
    | none => Except.error ("Could not find element: " ++ target)

theorem scanStrategies_isNone_iff (p : PageModel) (target : String) :
    ∀ i, scanStrategies p target i = none ↔
      ∀ j, i ≤ j → j < numStrategies → strategyMatches p target j = false := by
  have hstep : ∀ fuel i, numStrategies - i = fuel →
      (scanStrategies p target i = none ↔
        ∀ j, i ≤ j → j < numStrategies → strategyMatches p target j = false) := by
    intro fuel
    induction fuel with
    | zero =>
      intro i hfuel
      have hge : ¬ i < numStrategies := by omega
      unfold scanStrategies
      rw [dif_neg hge]
      constructor
      · intro _ j hij hj
        exact absurd (by omega : i < numStrategies) hge
      · intro _; rfl
    | succ n ih =>
      intro i hfuel
      have hlt : i < numStrategies := by omega
      unfold scanStrategies
      rw [dif_pos hlt]
      by_cases hm : strategyMatches p target i
      · rw [if_pos hm]
        constructor
        · intro h; cases h
        · intro hall
          exact absurd (hall i le_rfl hlt) (by simp [hm])
      · rw [if_neg hm]
        rw [ih (i + 1) (by omega)]
        constructor
        · intro hall j hij hj
          rcases Nat.eq_or_lt_of_le hij with h | h
          · subst h; simpa using hm
          · exact hall j h hj
        · intro hall j hij hj
          exact hall j (by omega) hj
  intro i
  exact hstep (numStrategies - i) i rfl

theorem scanStrategies_first (p : PageModel) (target : String) (i : Nat)
    (hi : i < numStrategies) (hm : strategyMatches p target i = true)
    (hmin : ∀ j, j < i → strategyMatches p target j = false) :
    scanStrategies p target 0 = some i := by
  have hstep : ∀ fuel j, j ≤ i → i - j = fuel →
      scanStrategies p target j = some i := by
    intro fuel
    induction fuel with
    | zero =>
      intro j hj hfuel
      have : j = i := by omega
      subst this
      unfold scanStrategies
      rw [dif_pos hi, if_pos hm]
    | succ n ih =>
      intro j hj hfuel
      have hji : j < i := by omega
      unfold scanStrategies
      rw [dif_pos (by omega : j < numStrategies), if_neg (by simp [hmin j hji]),
        ih (j + 1) (by omega) (by omega)]
  exact hstep i 0 (by omega) (by omega)

theorem scanWords_eq_none_iff (p : PageModel) :
    ∀ ws : List String, scanWords p ws = none ↔
      ∀ w ∈ ws, wordMatches p w = false := by
  intro ws
  induction ws with
  | nil => simp [scanWords]
  | cons w rest ih =>
    by_cases hm : wordMatches p w
    · simp [scanWords, hm]
    · simp only [scanWords, if_neg hm, ih, List.mem_cons]
      constructor
      · intro hall w' hw'
        rcases hw' with h | h
        · subst h; simpa using hm
        · exact hall w' h
      · intro hall w' hw'
        exact hall w' (Or.inr hw')

/-! ### TestContextManager (src/context_manager.py)

A context record is a `Dict`; the manager state `self.contexts` is an
association list from context id to record.  `datetime.now().isoformat()` is
threaded as an explicit `now : String` argument.  Operations that can raise
in Python (`update_context` on a record whose `history` is missing or not a
list, or whose `test_data` is missing or not a dict; `set_test_data` on a
non-dict `test_data`) return `none`.  `export_context` is `json.dumps` of
the record and `import_context` is `json.loads` of its argument; on the
serializable records the round-trip claims quantify over, `loads ∘ dumps` is
the identity, so serialization is modelled as the identity on `Dict` and
export hands the record itself to import. -/

abbrev Ctx := Dict
abbrev Store := List (String × Ctx)

/-- The dict literal built by `create_context` before merging
`initial_data`. -/
def baseCtx (cid now : String) : Ctx :=
  [("id", Val.str cid), ("created_at", Val.str now),
   ("updated_at", Val.str now), ("test_data", Val.dict []),
   ("history", Val.list []), ("current_state", Val.dict [])]

/-- `TestContextManager.create_context`: returns the new record and the
updated store. -/
def create_context (store : Store) (cid : String)
    (initial : Option Dict) (now : String) : Ctx × Store :=
  let c := dmerge (baseCtx cid now) (initial.getD [])
  (c, aset store cid c)

/-- `TestContextManager.get_context`: create-if-absent. -/
def get_context (store : Store) (cid : String) (now : String) : Ctx × Store :=
  match alookup store cid with
  | some c => (c, store)
  | none => create_context store cid none now

/-- The history entry `update_context` appends when `"last_result"` is
present in `updates`. -/
def histEntry (now : String) (updates : Dict) (lr : Val) : Val :=
  Val.dict [("timestamp", Val.str now),
            ("test", (alookup updates "last_test").getD (Val.str "")),
            ("result", lr)]

/-- One `"test_data"` iteration of the update loop: merge the patch value
into the record's existing `test_data` dict; `none` models the exception
raised when the record has no `test_data` entry or either side is not a
dict. -/
def tdMerge (c : Ctx) (v : Val) : Option Ctx :=
  match alookup c "test_data", v with
  | some (Val.dict td), Val.dict pv =>
    some (aset c "test_data" (Val.dict (dmerge td pv)))
  | _, _ => none

/-- The `for key, value in updates.items()` loop of `update_context`:
`"test_data"` merges into the existing `test_data` dict, every other key is
assigned. -/
def applyUpdates (c : Ctx) : Dict → Option Ctx
  | [] => some c
  | (k, v) :: rest =>
    if k = "test_data" then
      match tdMerge c v with
      | some c' => applyUpdates c' rest
      | none => none
    else applyUpdates (aset c k v) rest

/-- `TestContextManager.update_context`. -/
def update_context (store : Store) (cid : String) (updates : Dict)
    (now : String) : Option (Ctx × Store) :=
  let gc := get_context store cid now
  let step1 : Option Ctx :=
    match alookup updates "last_result" with
    | some lr =>
      match alookup gc.1 "history" with
      | some (Val.list h) =>
        some (aset gc.1 "history" (Val.list (h ++ [histEntry now updates lr])))
      | _ => none
    | none => some gc.1
  match step1 with
  | none => none
  | some c1 =>
    match applyUpdates c1 updates with
    | none => none
    | some c2 =>
      let c3 := aset c2 "updated_at" (Val.str now)
      some (c3, aset gc.2 cid c3)

/-- `TestContextManager.set_test_data`. -/
def set_test_data (store : Store) (cid k : String) (v : Val)
    (now : String) : Option (Ctx × Store) :=
  let gc := get_context store cid now
  let c1 := if hasKey gc.1 "test_data" then gc.1
            else aset gc.1 "test_data" (Val.dict [])
  match alookup c1 "test_data" with
  | some (Val.dict td) =>
    let c2 := aset (aset c1 "test_data" (Val.dict (aset td k v)))
                "updated_at" (Val.str now)
    some (c2, aset gc.2 cid c2)
  | _ => none

/-- `TestContextManager.export_context` (serialization modelled as the
identity on the record, see the section comment). -/
def export_context (store : Store) (cid : String) (now : String) :
    Ctx × Store :=
  get_context store cid now

/-- `TestContextManager.import_context`: forces `id` to the given context id,
stamps `imported_at`, and replaces the stored record wholesale. -/
def import_context (store : Store) (cid : String) (data : Ctx)
    (now : String) : Ctx × Store :=
  let c := aset (aset data "id" (Val.str cid)) "imported_at" (Val.str now)
  (c, aset store cid c)

/-- `TestContextManager.clear_context`. -/
def clear_context (store : Store) (cid : String) : Store :=
  store.filter (fun e => e.1 ≠ cid)

/-- A sequence of `update_context` calls against one id (each paired with its
timestamp); `none` as soon as one raises. -/
def runUpdates (cid : String) : Store → List (Dict × String) → Option Store
  | store, [] => some store
  | store, (u, t) :: rest =>
    match update_context store cid u t with
    | some p => runUpdates cid p.2 rest
    | none => none

/-! ### Scenario runner (`BDDAutomationServer.run_scenario`, src/server.py)

`execute_test` (translator + browser pipeline) is abstracted into an oracle
`exec : Nat → String → StepOutcome`: the aggregated result of the `n`-th
`execute_test` call (0-based) made by this scenario run, on the stripped
step line it receives.  The loop consults only the `success` field of each
result; `detail` stands for the rest of the returned record. -/

structure StepOutcome where
  success : Bool
  detail : Val

/-- Python `scenario.strip().split` on a newline separator. -/
def scenarioLines (scenario : String) : List String :=
  (splitBy (fun c => c = '\n') (pyStrip scenario).data).map (fun cs => ⟨cs⟩)

/-- The non-blank lines among `scenarioLines` — the steps the loop actually
executes (the spec's `stepTotal` notion). -/
def nonBlankCount (scenario : String) : Nat :=
  ((scenarioLines scenario).filter (fun l => pyStrip l ≠ "")).length

/-- The `for line in lines` loop of `run_scenario`: skip blank lines, run
each non-blank line as a test, stop after the first failed result.  `n`
counts the `execute_test` calls made so far. -/
def runLines (exec : Nat → String → StepOutcome) :
    Nat → List String → List StepOutcome
  | _, [] => []
  | n, line :: rest =>
    if pyStrip line = "" then runLines exec n rest
    else
      let r := exec n (pyStrip line)
      if r.success then r :: runLines exec (n + 1) rest else [r]

/-- The dict `run_scenario` returns (the scenario text and the seeded
`test_data` are echoed back verbatim). -/
structure ScenarioResult where
  scenario : String
  total_steps : Nat
  executed_steps : Nat
  success : Bool
  results : List StepOutcome
  test_data : Dict

/-- `BDDAutomationServer.run_scenario`.  The derived session id and the
`test_data` seeding of the Test Context Store (`session_id` /
`update_context`, modelled by `sessionId` and `update_context` above) do not
feed back into the returned record and are kept separate. -/
def run_scenario (exec : Nat → String → StepOutcome) (scenario : String)
    (test_data : Dict) : ScenarioResult :=
  let lines := scenarioLines scenario
  let rs := runLines exec 0 lines
  { scenario := scenario
    total_steps := lines.length
    executed_steps := rs.length
    success := rs.all (fun r => r.success)
    results := rs
    test_data := test_data }

/-- `f"scenario_{hash(scenario) % 10000}"`, with Python's builtin `hash`
abstracted as `pyHash` (`%` on a positive modulus is Python's floor-mod,
i.e. `Int.emod`). -/
def sessionId (pyHash : String → Int) (scenario : String) : String :=
  "scenario_" ++ toString (pyHash scenario % 10000)

theorem runLines_cons_blank (exec : Nat → String → StepOutcome) (n : Nat)
    (line : String) (rest : List String) (h : pyStrip line = "") :
    runLines exec n (line :: rest) = runLines exec n rest := by
  unfold runLines
  rw [if_pos h]
  cases rest <;> rfl

theorem runLines_cons_ok (exec : Nat → String → StepOutcome) (n : Nat)
    (line : String) (rest : List String) (h : pyStrip line ≠ "")
    (hs : (exec n (pyStrip line)).success = true) :
    runLines exec n (line :: rest) =
      exec n (pyStrip line) :: runLines exec (n + 1) rest := by
  unfold runLines
  rw [if_neg h]
  simp only [if_pos hs]
  cases rest <;> rfl

theorem runLines_cons_fail (exec : Nat → String → StepOutcome) (n : Nat)
    (line : String) (rest : List String) (h : pyStrip line ≠ "")
    (hs : (exec n (pyStrip line)).success = false) :
    runLines exec n (line :: rest) = [exec n (pyStrip line)] := by
  unfold runLines
  rw [if_neg h]
  simp only [hs, Bool.false_eq_true, if_false]

theorem filter_cons_blank (line : String) (rest : List String)
    (h : pyStrip line = "") :
    (line :: rest).filter (fun l => pyStrip l ≠ "") =
      rest.filter (fun l => pyStrip l ≠ "") := by
  simp [List.filter_cons, h]

theorem filter_cons_nonblank (line : String) (rest : List String)
    (h : pyStrip line ≠ "") :
    (line :: rest).filter (fun l => pyStrip l ≠ "") =
      line :: rest.filter (fun l => pyStrip l ≠ "") := by
  simp [List.filter_cons, h]

theorem runLines_length_le_filter (exec : Nat → String → StepOutcome) :
    ∀ (lines : List String) (n : Nat),
      (runLines exec n lines).length ≤
        (lines.filter (fun l => pyStrip l ≠ "")).length := by
  intro lines
  induction lines with
  | nil => intro n; simp [runLines]
  | cons line rest ih =>
    intro n
    by_cases hb : pyStrip line = ""
    · rw [runLines_cons_blank exec n line rest hb, filter_cons_blank line rest hb]
      exact ih n
    · rw [filter_cons_nonblank line rest hb]
      by_cases hs : (exec n (pyStrip line)).success
      · rw [runLines_cons_ok exec n line rest hb hs]
        simpa using ih (n + 1)
      · rw [runLines_cons_fail exec n line rest hb (by simpa using hs)]
        simp

theorem filter_length_le_length (lines : List String) :
    (lines.filter (fun l => pyStrip l ≠ "")).length ≤ lines.length :=
  List.length_filter_le _ lines

/-- If every executed result succeeded, no early stop happened: every
non-blank line was executed. -/
theorem runLines_all_success (exec : Nat → String → StepOutcome) :
    ∀ (lines : List String) (n : Nat),
      (runLines exec n lines).all (fun r => r.success) = true →
      (runLines exec n lines).length =
        (lines.filter (fun l => pyStrip l ≠ "")).length := by
  intro lines
  induction lines with
  | nil => intro n _; simp [runLines]
  | cons line rest ih =>
    intro n hall
    by_cases hb : pyStrip line = ""
    · rw [runLines_cons_blank exec n line rest hb] at hall ⊢
      rw [filter_cons_blank line rest hb]
      exact ih n hall
    · by_cases hs : (exec n (pyStrip line)).success
      · rw [runLines_cons_ok exec n line rest hb hs] at hall ⊢
        rw [filter_cons_nonblank line rest hb]
        simp only [List.all_cons, Bool.and_eq_true] at hall
        simp only [List.length_cons]
        rw [ih (n + 1) hall.2]
      · rw [runLines_cons_fail exec n line rest hb (by simpa using hs)] at hall
        simp only [List.all_cons, List.all_nil, Bool.and_true] at hall
        exact absurd hall (by simpa using hs)

/-- Every executed result before the last one succeeded (the loop stops right
after the first failure). -/
theorem runLines_stop_at_failure (exec : Nat → String → StepOutcome) :
    ∀ (lines : List String) (n : Nat),
      ∀ r ∈ (runLines exec n lines).dropLast, r.success = true := by
  intro lines
  induction lines with
  | nil => intro n r hr; simp [runLines] at hr
  | cons line rest ih =>
    intro n r hr
    by_cases hb : pyStrip line = ""
    · rw [runLines_cons_blank exec n line rest hb] at hr
      exact ih n r hr
    · by_cases hs : (exec n (pyStrip line)).success
      · rw [runLines_cons_ok exec n line rest hb hs] at hr
        cases htail : runLines exec (n + 1) rest with
        | nil => rw [htail] at hr; simp at hr
        | cons b l =>
          rw [htail, List.dropLast_cons₂, List.mem_cons] at hr
          rcases hr with h | h
          · subst h; exact hs
          · exact ih (n + 1) r (by rw [htail]; exact h)
      · rw [runLines_cons_fail exec n line rest hb (by simpa using hs)] at hr
        simp at hr

/-- If every line is blank, the loop executes nothing, whatever the oracle
does. -/
theorem runLines_all_blank (exec : Nat → String → StepOutcome) :
    ∀ (lines : List String) (n : Nat),
      (∀ l ∈ lines, pyStrip l = "") → runLines exec n lines = [] := by
  intro lines
  induction lines with
  | nil => intro n _; rfl
  | cons line rest ih =>
    intro n hall
    rw [runLines_cons_blank exec n line rest (hall line (List.mem_cons_self _ _))]
    exact ih n (fun l hl => hall l (List.mem_cons_of_mem _ hl))

/-! ### Claim C1 -/

/-- C1 counterexample: for the unknown kind "frobnicate", `execute` returns
the unknown-kind failure dict, and that dict has NO "attempts" entry at all —
the claim's "the returned result records exactly 1 attempt" is false (the
handler loop at src/action_executor.py line 44 is the only code that writes
an "attempts" key, and the unknown-kind return at lines 36-40 precedes it). -/
theorem c1_counterexample :
    execute (fun _ _ => Except.error "boom") 3
        [("action", Val.str "frobnicate")] =
      Except.ok (some (unknownKindDict
        [("action", Val.str "frobnicate")] "frobnicate")) ∧
    alookup (unknownKindDict [("action", Val.str "frobnicate")] "frobnicate")
        "attempts" = none ∧
    (none : Option Val) ≠ some (Val.num 1) := by
  refine ⟨?_, ?_, ?_⟩
  · show execute (fun _ _ => Except.error "boom") 3
        [("action", Val.str "frobnicate")] = _
    unfold execute
    rw [show actionKind [("action", Val.str "frobnicate")] = some "frobnicate"
      from by decide]
    dsimp only
    rw [show knownKinds.contains "frobnicate" = false from by decide]
    rfl
  · rfl
  · intro h
    cases h

/-- C1 (amended): for every action of unknown kind, `execute` returns
immediately with success false and an "Unknown action type" error, the
handler loop is never entered (the result does not depend on the handler
oracle at all), and the returned dict records NO attempts field. -/
theorem c1_unknown_kind
    (handlers handlers' : String → Nat → Except String Dict)
    (retryCount : Nat) (action : Dict) (kind : String)
    (hkind : actionKind action = some kind)
    (hunk : knownKinds.contains kind = false) :
    execute handlers retryCount action =
        Except.ok (some (unknownKindDict action kind)) ∧
    alookup (unknownKindDict action kind) "success" =
        some (Val.bool false) ∧
    alookup (unknownKindDict action kind) "error" =
        some (Val.str ("Unknown action type: " ++ kind)) ∧
    alookup (unknownKindDict action kind) "attempts" = none ∧
    execute handlers retryCount action = execute handlers' retryCount action := by
  have hres : ∀ hs : String → Nat → Except String Dict,
      execute hs retryCount action =
        Except.ok (some (unknownKindDict action kind)) := by
    intro hs
    unfold execute
    rw [hkind]
    dsimp only
    rw [hunk]
    rfl
  exact ⟨hres handlers, rfl, rfl, rfl, by rw [hres handlers, hres handlers']⟩

/-- C1 witness: the amended theorem applied to a concrete unknown-kind
action. -/
theorem c1_unknown_kind_witness :
    execute (fun _ _ => Except.error "a") 3
        [("action", Val.str "frobnicate")] =
      Except.ok (some (unknownKindDict
        [("action", Val.str "frobnicate")] "frobnicate")) :=
  (c1_unknown_kind (fun _ _ => Except.error "a") (fun _ _ => Except.ok [])
    3 [("action", Val.str "frobnicate")] "frobnicate" (by decide)
    (by decide)).1

/-! ### Claim C2 -/

/-- C2: for a known-kind action, `attempts` equals the number of handler
invocations made.  If the handler returns normally on its (i+1)-th
invocation (0-based index `i < retryCount`) after raising on every earlier
one, the result is that invocation's dict with `attempts = i + 1`.  If every
one of the `retryCount ≥ 1` invocations raises, the result is a failure dict
with success false, `attempts = retryCount`, and the final fault's message
as the error. -/
theorem c2_execute_attempts (handlers : String → Nat → Except String Dict)
    (retryCount : Nat) (action : Dict) (kind : String)
    (hkind : actionKind action = some kind)
    (hknown : knownKinds.contains kind = true) :
    (∀ i r, i < retryCount → handlers kind i = Except.ok r →
      (∀ j, j < i → ∃ e, handlers kind j = Except.error e) →
      execute handlers retryCount action =
        Except.ok (some (aset r "attempts" (Val.num (i + 1)))) ∧
      alookup (aset r "attempts" (Val.num (i + 1))) "attempts" =
        some (Val.num (i + 1)))
    ∧ (∀ msgs : Nat → String, 0 < retryCount →
      (∀ i, i < retryCount → handlers kind i = Except.error (msgs i)) →
      execute handlers retryCount action =
        Except.ok (some (retryFailDict action (msgs (retryCount - 1))
          (retryCount - 1))) ∧
      alookup (retryFailDict action (msgs (retryCount - 1)) (retryCount - 1))
          "attempts" = some (Val.num retryCount) ∧
      alookup (retryFailDict action (msgs (retryCount - 1)) (retryCount - 1))
          "success" = some (Val.bool false) ∧
      alookup (retryFailDict action (msgs (retryCount - 1)) (retryCount - 1))
          "error" = some (Val.str (msgs (retryCount - 1)))) := by
  have hexec : execute handlers retryCount action =
      Except.ok (retryLoop (handlers kind) action retryCount 0) := by
    unfold execute
    rw [hkind]
    dsimp only
    rw [hknown]
    rfl
  constructor
  · intro i r hi hok herr
    refine ⟨?_, alookup_aset_self r "attempts" (Val.num (i + 1))⟩
    rw [hexec,
      retryLoop_ok (handlers kind) action retryCount i r hi hok 0 (by omega)
        (fun l _ hl => herr l hl)]
  · intro msgs hpos herr
    refine ⟨?_, ?_, rfl, rfl⟩
    · rw [hexec,
        retryLoop_allFail (handlers kind) action retryCount msgs herr 0 hpos]
    · have h1 : ((retryCount - 1 : Nat) : Int) + 1 = (retryCount : Int) := by
        omega
      show some (Val.num ((retryCount - 1 : Nat) + 1)) =
        some (Val.num retryCount)
      rw [h1]

/-- C2 witness: a handler for kind "click" (reached through the lowercasing
of "Click") that raises once and then returns normally yields
`attempts = 2` with `retryCount = 2`. -/
theorem c2_execute_attempts_witness :
    execute
      (fun _ i => if i = 0 then Except.error "e0"
                  else Except.ok [("success", Val.bool true)])
      2 [("action", Val.str "Click")] =
      Except.ok (some (aset [("success", Val.bool true)] "attempts"
        (Val.num 2))) :=
  ((c2_execute_attempts
    (fun _ i => if i = 0 then Except.error "e0"
                else Except.ok [("success", Val.bool true)])
    2 [("action", Val.str "Click")] "click" (by decide) (by decide)).1 1
    [("success", Val.bool true)] (by omega) rfl
    (fun j hj => by
      have hj0 : j = 0 := by omega
      subst hj0
      exact ⟨"e0", rfl⟩)).1

/-! ### Claim C5 -/

/-- C5: element resolution over the fixed strategy cascade.  First, a
strategy whose count call raises counts as no match.  Second, the first
matching strategy in cascade order determines the result: it is that
strategy's first match.  Third, the resolver raises its element-not-found
fault exactly when every one of the 14 strategies yields no match and every
description token the fallback tries (the length-greater-3 words of the
lowercased description, which is the empty token list when no description is
supplied) yields no match.  Determinism is inherent: `find_element` is a
function of the page model and inputs. -/
theorem c5_find_element_cascade (p : PageModel) (target description : String) :
    (∀ t i, p.strategyCount t i = Except.error () →
      strategyMatches p t i = false)
    ∧ (∀ i, i < numStrategies → strategyMatches p target i = true →
        (∀ j, j < i → strategyMatches p target j = false) →
        find_element p target description = Except.ok (Elem.strat i))
    ∧ ((∃ e, find_element p target description = Except.error e) ↔
        (∀ i, i < numStrategies → strategyMatches p target i = false) ∧
        (∀ w ∈ descWords description, wordMatches p w = false)) := by
  refine ⟨?_, ?_, ?_⟩
  · intro t i h
    unfold strategyMatches
    rw [h]
  · intro i hi hm hmin
    unfold find_element
    rw [scanStrategies_first p target i hi hm hmin]
  · cases hscan : scanStrategies p target 0 with
    | some i =>
      constructor
      · intro ⟨e, he⟩
        unfold find_element at he
        rw [hscan] at he
        cases he
      · intro ⟨hall, _⟩
        have : scanStrategies p target 0 = none := by
          rw [scanStrategies_isNone_iff]
          intro j _ hj
          exact hall j hj
        rw [this] at hscan
        cases hscan
    | none =>
      cases hw : scanWords p (descWords description) with
      | some w =>
        constructor
        · intro ⟨e, he⟩
          unfold find_element at he
          rw [hscan, hw] at he
          cases he
        · intro ⟨_, hwords⟩
          have : scanWords p (descWords description) = none := by
            rw [scanWords_eq_none_iff]
            exact hwords
          rw [this] at hw
          cases hw
      | none =>
        constructor
        · intro _
          constructor
          · intro i hi
            exact ((scanStrategies_isNone_iff p target 0).1 hscan) i
              (Nat.zero_le i) hi
          · exact (scanWords_eq_none_iff p (descWords description)).1 hw
        · intro _
          refine ⟨"Could not find element: " ++ target, ?_⟩
          unfold find_element
          rw [hscan, hw]

/-- C5 witness: on a page model where strategy 0 raises, strategy 1 yields
zero matches, and strategy 2 matches, the resolver returns strategy 2's
first match. -/
theorem c5_find_element_cascade_witness :
    find_element
      ⟨fun _ i => if i = 0 then Except.error ()
                  else if i = 2 then Except.ok 3 else Except.ok 0,
       fun _ => Except.ok 0⟩ "x" "" = Except.ok (Elem.strat 2) :=
  (c5_find_element_cascade
    ⟨fun _ i => if i = 0 then Except.error ()
                else if i = 2 then Except.ok 3 else Except.ok 0,
     fun _ => Except.ok 0⟩ "x" "").2.1 2 (by decide) (by decide)
    (fun j hj => by
      interval_cases j <;> decide)

/-! ### Claim C3 -/

/-- C3 counterexample: two parts of the claim fail on the code.  First,
`total_steps` counts every line of the stripped scenario text, blank
interior lines included: the scenario joining lines "a", "", "b" by
newlines reports `total_steps = 3` while only 2 lines are non-blank.
Second, `executed_steps = total_steps` can hold even though a step failed:
a two-line scenario whose second step fails reports
`executed_steps = 2 = total_steps` with `success = false`. -/
theorem c3_counterexample :
    (run_scenario (fun _ _ => ⟨true, Val.null⟩) "a\n\nb" []).total_steps = 3 ∧
    nonBlankCount "a\n\nb" = 2 ∧
    (run_scenario (fun n _ => if n = 0 then ⟨true, Val.null⟩
        else ⟨false, Val.null⟩) "a\nb" []).executed_steps = 2 ∧
    (run_scenario (fun n _ => if n = 0 then ⟨true, Val.null⟩
        else ⟨false, Val.null⟩) "a\nb" []).total_steps = 2 ∧
    (run_scenario (fun n _ => if n = 0 then ⟨true, Val.null⟩
        else ⟨false, Val.null⟩) "a\nb" []).success = false :=
  ⟨rfl, rfl, rfl, rfl, rfl⟩

/-- C3 (amended): `total_steps` is the number of lines of the stripped
scenario text (blank interior lines included); `executed_steps` equals the
length of the per-step result list, is at most the non-blank line count,
which is at most `total_steps`; every executed step before the last one
succeeded (execution stops at the first failed step); and when the
aggregated success is true the executed count equals the non-blank line
count (equality with `total_steps` additionally requires every line to be
non-blank, and can also arise when the final executed step failed). -/
theorem c3_scenario_counts (exec : Nat → String → StepOutcome)
    (scenario : String) (td : Dict) :
    (run_scenario exec scenario td).total_steps =
      (scenarioLines scenario).length ∧
    (run_scenario exec scenario td).executed_steps =
      (run_scenario exec scenario td).results.length ∧
    (run_scenario exec scenario td).executed_steps ≤ nonBlankCount scenario ∧
    nonBlankCount scenario ≤ (run_scenario exec scenario td).total_steps ∧
    (∀ r ∈ (run_scenario exec scenario td).results.dropLast,
      r.success = true) ∧
    ((run_scenario exec scenario td).success = true →
      (run_scenario exec scenario td).executed_steps =
        nonBlankCount scenario) := by
  refine ⟨rfl, rfl, ?_, ?_, ?_, ?_⟩
  · exact runLines_length_le_filter exec (scenarioLines scenario) 0
  · exact filter_length_le_length (scenarioLines scenario)
  · intro r hr
    exact runLines_stop_at_failure exec (scenarioLines scenario) 0 r hr
  · intro hs
    exact runLines_all_success exec (scenarioLines scenario) 0 hs

/-- C3 witness: the amended theorem's all-successes clause applied to a
concrete two-line scenario whose steps all succeed. -/
theorem c3_scenario_counts_witness :
    (run_scenario (fun _ _ => ⟨true, Val.null⟩) "a\nb" []).executed_steps =
      nonBlankCount "a\nb" :=
  (c3_scenario_counts (fun _ _ => ⟨true, Val.null⟩) "a\nb" []).2.2.2.2.2 rfl

/-! ### Claim C4 -/

/-- C4: in a three-step scenario whose first step succeeds and whose second
step fails, `run_scenario` reports `executed_steps = 2`, aggregated success
false, a per-step result list of exactly the two attempted results, and the
whole returned record is unchanged under any oracle that agrees on those
two calls — the third step is never attempted. -/
theorem c4_three_step (exec : Nat → String → StepOutcome) (scenario : String)
    (td : Dict) (l1 l2 l3 : String)
    (hlines : scenarioLines scenario = [l1, l2, l3])
    (h1 : pyStrip l1 ≠ "") (h2 : pyStrip l2 ≠ "") (h3 : pyStrip l3 ≠ "")
    (hs1 : (exec 0 (pyStrip l1)).success = true)
    (hs2 : (exec 1 (pyStrip l2)).success = false) :
    (run_scenario exec scenario td).executed_steps = 2 ∧
    (run_scenario exec scenario td).success = false ∧
    (run_scenario exec scenario td).results =
      [exec 0 (pyStrip l1), exec 1 (pyStrip l2)] ∧
    ∀ exec' : Nat → String → StepOutcome,
      exec' 0 (pyStrip l1) = exec 0 (pyStrip l1) →
      exec' 1 (pyStrip l2) = exec 1 (pyStrip l2) →
      run_scenario exec' scenario td = run_scenario exec scenario td := by
  have hrl : runLines exec 0 (scenarioLines scenario) =
      [exec 0 (pyStrip l1), exec 1 (pyStrip l2)] := by
    rw [hlines, runLines_cons_ok exec 0 l1 [l2, l3] h1 hs1,
      runLines_cons_fail exec 1 l2 [l3] h2 hs2]
  refine ⟨?_, ?_, ?_, ?_⟩
  · show (runLines exec 0 (scenarioLines scenario)).length = 2
    rw [hrl]
    rfl
  · show (runLines exec 0 (scenarioLines scenario)).all
      (fun r => r.success) = false
    rw [hrl]
    simp [hs2]
  · exact hrl
  · intro exec' ha0 ha1
    have hrl' : runLines exec' 0 (scenarioLines scenario) =
        [exec' 0 (pyStrip l1), exec' 1 (pyStrip l2)] := by
      rw [hlines, runLines_cons_ok exec' 0 l1 [l2, l3] h1
          (by rw [ha0]; exact hs1),
        runLines_cons_fail exec' 1 l2 [l3] h2 (by rw [ha1]; exact hs2)]
    simp only [run_scenario]
    rw [hrl, hrl', ha0, ha1]

/-- C4 witness: the theorem applied to the concrete scenario with lines
"one", "two", "three" and an oracle that succeeds on its first call and
fails on its second. -/
theorem c4_three_step_witness :
    (run_scenario (fun n _ => if n = 0 then ⟨true, Val.null⟩
        else ⟨false, Val.null⟩) "one\ntwo\nthree" []).executed_steps = 2 :=
  (c4_three_step (fun n _ => if n = 0 then ⟨true, Val.null⟩
      else ⟨false, Val.null⟩) "one\ntwo\nthree" [] "one" "two" "three"
    rfl (by decide) (by decide) (by decide) rfl rfl).1

/-! ### Claim C10 -/

/-- C10: a scenario with no non-blank line executes zero steps, aggregates
to success true (the conjunction over an empty result list), returns an
empty per-step result list, and the returned record does not depend on the
translator-and-browser oracle at all — no step pipeline is consulted. -/
theorem c10_empty_scenario (exec : Nat → String → StepOutcome)
    (scenario : String) (td : Dict)
    (hblank : ∀ l ∈ scenarioLines scenario, pyStrip l = "") :
    (run_scenario exec scenario td).executed_steps = 0 ∧
    (run_scenario exec scenario td).success = true ∧
    (run_scenario exec scenario td).results = [] ∧
    ∀ exec' : Nat → String → StepOutcome,
      run_scenario exec' scenario td = run_scenario exec scenario td := by
  have h0 : ∀ e : Nat → String → StepOutcome,
      runLines e 0 (scenarioLines scenario) = [] :=
    fun e => runLines_all_blank e (scenarioLines scenario) 0 hblank
  refine ⟨?_, ?_, h0 exec, ?_⟩
  · show (runLines exec 0 (scenarioLines scenario)).length = 0
    rw [h0 exec]
    rfl
  · show (runLines exec 0 (scenarioLines scenario)).all
      (fun r => r.success) = true
    rw [h0 exec]
    rfl
  · intro exec'
    simp only [run_scenario]
    rw [h0 exec, h0 exec']

/-- C10 witness: the theorem applied to a whitespace-only scenario. -/
theorem c10_empty_scenario_witness :
    (run_scenario (fun _ _ => ⟨false, Val.null⟩) "  \n\n\t" []).executed_steps
      = 0 :=
  (c10_empty_scenario (fun _ _ => ⟨false, Val.null⟩) "  \n\n\t" []
    (by decide)).1

theorem tdMerge_some (c : Ctx) (v : Val) (c' : Ctx)
    (h : tdMerge c v = some c') :
    ∃ td pv, alookup c "test_data" = some (Val.dict td) ∧ v = Val.dict pv ∧
      c' = aset c "test_data" (Val.dict (dmerge td pv)) := by
  unfold tdMerge at h
  split at h
  · rename_i td pv heq
    injection h with h
    exact ⟨td, pv, heq, rfl, h.symm⟩
  · cases h

theorem tdMerge_dict (c : Ctx) (td pv : Dict)
    (h : alookup c "test_data" = some (Val.dict td)) :
    tdMerge c (Val.dict pv) =
      some (aset c "test_data" (Val.dict (dmerge td pv))) := by
  unfold tdMerge
  rw [h]

theorem applyUpdates_no_td (updates : Dict) :
    ∀ c : Ctx, (∀ kv ∈ updates, kv.1 ≠ "test_data") →
      applyUpdates c updates = some (dmerge c updates) := by
  induction updates with
  | nil => intro c _; rfl
  | cons e rest ih =>
    intro c hno
    obtain ⟨k, v⟩ := e
    have hk : k ≠ "test_data" := hno (k, v) (List.mem_cons_self _ _)
    unfold applyUpdates
    rw [if_neg hk]
    exact ih (aset c k v) (fun kv hkv => hno kv (List.mem_cons_of_mem _ hkv))

/-- Specification of the update loop when the patch carries a `test_data`
sub-dict: the final record's `test_data` is the key-wise merge, and every
other key reads as "patch first, then the pre-loop record". -/
theorem applyUpdates_td (updates : Dict) :
    ∀ (c : Ctx) (p td : Dict),
      (updates.map Prod.fst).Nodup →
      alookup updates "test_data" = some (Val.dict p) →
      alookup c "test_data" = some (Val.dict td) →
      ∃ c2, applyUpdates c updates = some c2 ∧
        alookup c2 "test_data" = some (Val.dict (dmerge td p)) ∧
        (∀ k, k ≠ "test_data" →
          alookup c2 k = oor (alookup updates k) (alookup c k)) := by
  induction updates with
  | nil => intro c p td _ hpatch _; cases hpatch
  | cons e rest ih =>
    intro c p td hnd hpatch htd
    obtain ⟨k0, v0⟩ := e
    simp only [List.map_cons, List.nodup_cons] at hnd
    by_cases hk0 : k0 = "test_data"
    · subst hk0
      have hv : v0 = Val.dict p := by
        simpa [alookup] using hpatch
      subst hv
      have hnorest : ∀ kv ∈ rest, kv.1 ≠ "test_data" := by
        intro kv hkv h
        exact hnd.1 (h ▸ List.mem_map_of_mem Prod.fst hkv)
      have hnone : alookup rest "test_data" = none :=
        alookup_eq_none_of_not_mem rest _ hnd.1
      unfold applyUpdates
      rw [if_pos rfl, tdMerge_dict c td p htd]
      dsimp only
      rw [applyUpdates_no_td rest _ hnorest]
      refine ⟨_, rfl, ?_, ?_⟩
      · rw [alookup_dmerge rest _ hnd.2 "test_data", hnone]
        show alookup (aset c "test_data" (Val.dict (dmerge td p)))
          "test_data" = _
        rw [alookup_aset_self]
      · intro k hk
        rw [alookup_dmerge rest _ hnd.2 k,
          alookup_aset_ne c "test_data" k _ hk]
        have : alookup (("test_data", Val.dict p) :: rest) k =
            alookup rest k := by
          simp [alookup, Ne.symm hk]
        rw [this]
    · have hpatch' : alookup rest "test_data" = some (Val.dict p) := by
        simpa [alookup, hk0] using hpatch
      have htd' : alookup (aset c k0 v0) "test_data" =
          some (Val.dict td) := by
        rw [alookup_aset_ne c k0 _ v0 (fun h => hk0 h.symm)]
        exact htd
      obtain ⟨c2, happ, htd2, hrest⟩ := ih (aset c k0 v0) p td hnd.2 hpatch' htd'
      refine ⟨c2, ?_, htd2, ?_⟩
      · unfold applyUpdates
        rw [if_neg hk0]
        exact happ
      · intro k hk
        by_cases hkk0 : k = k0
        · subst hkk0
          have h1 : alookup rest k = none :=
            alookup_eq_none_of_not_mem rest _ hnd.1
          rw [hrest k hk, h1, alookup_aset_self]
          simp [alookup, oor]
        · have hne : k0 ≠ k := fun hh => hkk0 hh.symm
          rw [hrest k hk, alookup_aset_ne c k0 k v0 hkk0]
          have h2 : alookup ((k0, v0) :: rest) k = alookup rest k := by
            simp [alookup, hne]
          rw [h2]

/-- Keys the update loop never assigns (and which are not `test_data`) are
unchanged by it. -/
theorem applyUpdates_not_key (updates : Dict) :
    ∀ (c c2 : Ctx) (k : String),
      applyUpdates c updates = some c2 →
      (∀ kv ∈ updates, kv.1 ≠ k) → k ≠ "test_data" →
      alookup c2 k = alookup c k := by
  induction updates with
  | nil =>
    intro c c2 k h _ _
    cases h
    rfl
  | cons e rest ih =>
    intro c c2 k h hno hktd
    obtain ⟨k0, v0⟩ := e
    have hk0k : k0 ≠ k := hno (k0, v0) (List.mem_cons_self _ _)
    have hnorest : ∀ kv ∈ rest, kv.1 ≠ k :=
      fun kv hkv => hno kv (List.mem_cons_of_mem _ hkv)
    unfold applyUpdates at h
    by_cases hk0 : k0 = "test_data"
    · rw [if_pos hk0] at h
      cases htm : tdMerge c v0 with
      | none => rw [htm] at h; cases h
      | some c' =>
        rw [htm] at h
        dsimp only at h
        obtain ⟨td, pv, hctd, hv, hc'⟩ := tdMerge_some c v0 c' htm
        have h1 : alookup c' k = alookup c k := by
          rw [hc', alookup_aset_ne c "test_data" k _ hktd]
        rw [ih c' c2 k h hnorest hktd, h1]
    · rw [if_neg hk0] at h
      rw [ih (aset c k0 v0) c2 k h hnorest hktd,
        alookup_aset_ne c k0 k v0 (fun hh => hk0k hh.symm)]

/-! ### Claim C6 -/

/-- C6 counterexample: the claim's "top-level keys of the patch other than
testData overwrite the stored record's corresponding fields wholesale"
fails for the key `updated_at`: a patch carrying both a `test_data` sub-map
and an `updated_at` value sees its `updated_at` overwritten by the mutation
timestamp at the end of `update_context` (src/context_manager.py line 50),
so the stored value is the timestamp, not the patch's value. -/
theorem c6_counterexample :
    (update_context [] "c"
        [("test_data", Val.dict []), ("updated_at", Val.str "BOGUS")]
        "T1").map (fun q => alookup q.1 "updated_at") =
      some (some (Val.str "T1")) ∧
    Val.str "T1" ≠ Val.str "BOGUS" := by
  refine ⟨rfl, ?_⟩
  intro h
  injection h with h
  exact absurd h (by decide)

/-- C6 (amended): for every context id and every update whose patch contains
a `test_data` sub-dict (and succeeds), the stored `test_data` afterwards is
the key-wise merge of the old `test_data` with the sub-dict — patch keys
win, all other old keys keep their values — and every top-level patch key
other than `test_data` and `updated_at` is overwritten wholesale with the
patch's value, while `updated_at` is always set to the mutation
timestamp. -/
theorem c6_update_merges_testdata (store : Store) (cid now : String)
    (updates p td : Dict)
    (hnodup : (updates.map Prod.fst).Nodup)
    (hp : (p.map Prod.fst).Nodup)
    (hpatch : alookup updates "test_data" = some (Val.dict p))
    (htd : alookup (get_context store cid now).1 "test_data" =
      some (Val.dict td))
    (hhist : alookup updates "last_result" = none ∨
      ∃ h, alookup (get_context store cid now).1 "history" =
        some (Val.list h)) :
    ∃ c st, update_context store cid updates now = some (c, st) ∧
      alookup st cid = some c ∧
      (∃ td2, alookup c "test_data" = some (Val.dict td2) ∧
        ∀ k, alookup td2 k = oor (alookup p k) (alookup td k)) ∧
      (∀ k v, k ≠ "test_data" → k ≠ "updated_at" →
        alookup updates k = some v → alookup c k = some v) ∧
      alookup c "updated_at" = some (Val.str now) := by
  have hfinish : ∀ c1 : Ctx, alookup c1 "test_data" = some (Val.dict td) →
      ∃ c st,
        (match applyUpdates c1 updates with
         | none => none
         | some c2 =>
           some (aset c2 "updated_at" (Val.str now),
             aset (get_context store cid now).2 cid
               (aset c2 "updated_at" (Val.str now)))) = some (c, st) ∧
        alookup st cid = some c ∧
        (∃ td2, alookup c "test_data" = some (Val.dict td2) ∧
          ∀ k, alookup td2 k = oor (alookup p k) (alookup td k)) ∧
        (∀ k v, k ≠ "test_data" → k ≠ "updated_at" →
          alookup updates k = some v → alookup c k = some v) ∧
        alookup c "updated_at" = some (Val.str now) := by
    intro c1 htd1
    obtain ⟨c2, happ, htd2, hkeys⟩ :=
      applyUpdates_td updates c1 p td hnodup hpatch htd1
    rw [happ]
    refine ⟨_, _, rfl, alookup_aset_self _ cid _, ⟨dmerge td p, ?_, ?_⟩,
      ?_, alookup_aset_self _ "updated_at" _⟩
    · rw [alookup_aset_ne c2 "updated_at" "test_data" _ (by decide)]
      exact htd2
    · intro k
      exact alookup_dmerge p td hp k
    · intro k v hk1 hk2 hkv
      rw [alookup_aset_ne c2 "updated_at" k _ hk2, hkeys k hk1, hkv]
      rfl
  unfold update_context
  cases hlr : alookup updates "last_result" with
  | none =>
    dsimp only
    exact hfinish (get_context store cid now).1 htd
  | some lr =>
    rcases hhist with h | ⟨hl, hh⟩
    · rw [h] at hlr
      cases hlr
    · dsimp only
      rw [hh]
      dsimp only
      apply hfinish
      rw [alookup_aset_ne _ "history" "test_data" _ (by decide)]
      exact htd

/-- C6 witness: the amended theorem applied to a fresh store, seeding
`test_data` with one key. -/
theorem c6_update_merges_testdata_witness :
    ∃ c st, update_context [] "c"
        [("test_data", Val.dict [("x", Val.num 1)])] "T" = some (c, st) ∧
      alookup st "c" = some c ∧
      (∃ td2, alookup c "test_data" = some (Val.dict td2) ∧
        ∀ k, alookup td2 k = oor (alookup [("x", Val.num 1)] k)
          (alookup ([] : Dict) k)) ∧
      (∀ k v, k ≠ "test_data" → k ≠ "updated_at" →
        alookup [("test_data", Val.dict [("x", Val.num 1)])] k = some v →
        alookup c k = some v) ∧
      alookup c "updated_at" = some (Val.str "T") :=
  c6_update_merges_testdata [] "c" "T"
    [("test_data", Val.dict [("x", Val.num 1)])] [("x", Val.num 1)] []
    (by decide) (by decide) rfl rfl (Or.inl rfl)

/-- Characterization of a successful `update_context` call: the returned
record is the post-loop record with `updated_at` stamped, the store maps the
id to it, and the pre-loop record is the fetched record, with the history
entry appended exactly when the patch carries `last_result`. -/
theorem update_context_some (store : Store) (cid : String) (updates : Dict)
    (now : String) (c : Ctx) (st : Store)
    (h : update_context store cid updates now = some (c, st)) :
    ∃ c1 c2, applyUpdates c1 updates = some c2 ∧
      c = aset c2 "updated_at" (Val.str now) ∧
      st = aset (get_context store cid now).2 cid c ∧
      ((alookup updates "last_result" = none ∧
        c1 = (get_context store cid now).1) ∨
       (∃ lr hl, alookup updates "last_result" = some lr ∧
        alookup (get_context store cid now).1 "history" =
          some (Val.list hl) ∧
        c1 = aset (get_context store cid now).1 "history"
          (Val.list (hl ++ [histEntry now updates lr])))) := by
  unfold update_context at h
  dsimp only at h
  cases hlr : alookup updates "last_result" with
  | none =>
    rw [hlr] at h
    dsimp only at h
    cases happ : applyUpdates (get_context store cid now).1 updates with
    | none => rw [happ] at h; cases h
    | some c2 =>
      rw [happ] at h
      dsimp only at h
      injection h with h
      rw [Prod.mk.injEq] at h
      obtain ⟨hc, hst⟩ := h
      exact ⟨_, c2, happ, hc.symm, by rw [← hst, ← hc], Or.inl ⟨rfl, rfl⟩⟩
  | some lr =>
    rw [hlr] at h
    dsimp only at h
    cases hh : alookup (get_context store cid now).1 "history" with
    | none => rw [hh] at h; simp at h
    | some v =>
      rw [hh] at h
      cases v
      case list hl =>
        dsimp only at h
        cases happ : applyUpdates
            (aset (get_context store cid now).1 "history"
              (Val.list (hl ++ [histEntry now updates lr]))) updates with
        | none => rw [happ] at h; cases h
        | some c2 =>
          rw [happ] at h
          dsimp only at h
          injection h with h
          rw [Prod.mk.injEq] at h
          obtain ⟨hc, hst⟩ := h
          exact ⟨_, c2, happ, hc.symm, by rw [← hst, ← hc],
            Or.inr ⟨lr, hl, rfl, rfl, rfl⟩⟩
      all_goals simp at h

/-- Characterization of a successful `set_test_data` call: `updated_at` is
stamped with the call's timestamp. -/
theorem set_test_data_updated (store : Store) (cid k : String) (v : Val)
    (now : String) (c : Ctx) (st : Store)
    (h : set_test_data store cid k v now = some (c, st)) :
    alookup c "updated_at" = some (Val.str now) ∧ alookup st cid = some c := by
  unfold set_test_data at h
  dsimp only at h
  split at h
  · injection h with h
    rw [Prod.mk.injEq] at h
    obtain ⟨hc, hst⟩ := h
    subst hc
    subst hst
    exact ⟨alookup_aset_self _ _ _, alookup_aset_self _ _ _⟩
  · cases h

/-- When the store already holds a record for the id, `get_context` returns
it and leaves the store unchanged. -/
theorem get_context_found (store : Store) (cid now : String) (c0 : Ctx)
    (h : alookup store cid = some c0) :
    get_context store cid now = (c0, store) := by
  unfold get_context
  rw [h]

/-- History growth over a sequence of successful `update_context` calls that
each record a completed execution (`last_result` present) and never assign
the `history` key themselves: each call appends exactly one entry. -/
theorem runUpdates_history (cid : String) :
    ∀ (us : List (Dict × String)) (st0 : Store) (c0 : Ctx) (h0 : List Val)
      (stN : Store),
      alookup st0 cid = some c0 →
      alookup c0 "history" = some (Val.list h0) →
      (∀ q ∈ us, (alookup q.1 "last_result").isSome = true ∧
        ∀ kv ∈ q.1, kv.1 ≠ "history") →
      runUpdates cid st0 us = some stN →
      ∃ cN hN, alookup stN cid = some cN ∧
        alookup cN "history" = some (Val.list hN) ∧
        hN.length = h0.length + us.length := by
  intro us
  induction us with
  | nil =>
    intro st0 c0 h0 stN hc0 hh0 _ hrun
    injection hrun with hrun
    subst hrun
    exact ⟨c0, h0, hc0, hh0, by simp⟩
  | cons q us' ih =>
    intro st0 c0 h0 stN hc0 hh0 hall hrun
    obtain ⟨u, t⟩ := q
    unfold runUpdates at hrun
    cases hupd : update_context st0 cid u t with
    | none => rw [hupd] at hrun; cases hrun
    | some pr =>
      rw [hupd] at hrun
      dsimp only at hrun
      obtain ⟨c, st1⟩ := pr
      obtain ⟨hq1, hq2⟩ := hall (u, t) (List.mem_cons_self _ _)
      obtain ⟨c1, c2, happ, hc, hst, hcase⟩ :=
        update_context_some st0 cid u t c st1 hupd
      rw [get_context_found st0 cid t c0 hc0] at hcase hst
      rcases hcase with ⟨hnone, _⟩ | ⟨lr, hl, hlr, hh, hc1⟩
      · rw [hnone] at hq1
        cases hq1
      · rw [hh0] at hh
        injection hh with hh
        injection hh with hh
        subst hh
        have hc2h : alookup c2 "history" = alookup c1 "history" :=
          applyUpdates_not_key u c1 c2 "history" happ hq2 (by decide)
        have hc1h : alookup c1 "history" =
            some (Val.list (h0 ++ [histEntry t u lr])) := by
          rw [hc1]
          exact alookup_aset_self _ _ _
        have hch : alookup c "history" =
            some (Val.list (h0 ++ [histEntry t u lr])) := by
          rw [hc, alookup_aset_ne c2 "updated_at" "history" _ (by decide),
            hc2h, hc1h]
        have hst1 : alookup st1 cid = some c := by
          rw [hst]
          exact alookup_aset_self _ _ _
        obtain ⟨cN, hN, h1, h2, h3⟩ :=
          ih st1 c (h0 ++ [histEntry t u lr]) stN hst1 hch
            (fun q hq => hall q (List.mem_cons_of_mem _ hq)) hrun
        refine ⟨cN, hN, h1, h2, ?_⟩
        rw [h3]
        simp only [List.length_append, List.length_cons, List.length_nil]
        omega

/-! ### Claim C7 -/

/-- C7 counterexample: `import_context` is a mutating operation of the Test
Context Store, but it does not refresh `updated_at` — it stamps
`imported_at` and keeps whatever `updated_at` the imported data carried
(src/context_manager.py lines 102-108), so the claim's "updatedAt is
refreshed on every mutation" is false. -/
theorem c7_counterexample :
    alookup (import_context [] "c" [("updated_at", Val.str "OLD")] "NEW").1
        "updated_at" = some (Val.str "OLD") ∧
    Val.str "OLD" ≠ Val.str "NEW" := by
  refine ⟨rfl, ?_⟩
  intro h
  injection h with h
  exact absurd h (by decide)

/-- C7 (amended): `updated_at` is refreshed by `create_context`,
`update_context` and `set_test_data`, but `import_context` keeps the
imported data's `updated_at` and stamps `imported_at` instead; and after N
successful `update_context` calls that each record a completed execution
(`last_result` present, no `history` key in the patch) against one id, the
record's history has grown by exactly N entries. -/
theorem c7_context_invariants (cid : String) :
    (∀ store updates now c st,
      update_context store cid updates now = some (c, st) →
      alookup c "updated_at" = some (Val.str now) ∧
      alookup st cid = some c) ∧
    (∀ (store : Store) now,
      alookup (create_context store cid none now).1 "updated_at" =
        some (Val.str now)) ∧
    (∀ store k v now c st,
      set_test_data store cid k v now = some (c, st) →
      alookup c "updated_at" = some (Val.str now)) ∧
    (∀ (store : Store) data now,
      alookup (import_context store cid data now).1 "updated_at" =
        alookup data "updated_at") ∧
    (∀ (us : List (Dict × String)) (st0 : Store) (c0 : Ctx) (h0 : List Val)
      (stN : Store),
      alookup st0 cid = some c0 →
      alookup c0 "history" = some (Val.list h0) →
      (∀ q ∈ us, (alookup q.1 "last_result").isSome = true ∧
        ∀ kv ∈ q.1, kv.1 ≠ "history") →
      runUpdates cid st0 us = some stN →
      ∃ cN hN, alookup stN cid = some cN ∧
        alookup cN "history" = some (Val.list hN) ∧
        hN.length = h0.length + us.length) := by
  refine ⟨?_, ?_, ?_, ?_, runUpdates_history cid⟩
  · intro store updates now c st h
    obtain ⟨c1, c2, _, hc, hst, _⟩ :=
      update_context_some store cid updates now c st h
    constructor
    · rw [hc]
      exact alookup_aset_self _ _ _
    · rw [hst]
      exact alookup_aset_self _ _ _
  · intro store now
    rfl
  · intro store k v now c st h
    exact (set_test_data_updated store cid k v now c st h).1
  · intro store data now
    show alookup (aset (aset data "id" (Val.str cid)) "imported_at"
      (Val.str now)) "updated_at" = _
    rw [alookup_aset_ne _ "imported_at" "updated_at" _ (by decide),
      alookup_aset_ne _ "id" "updated_at" _ (by decide)]

/-- C7 witness: two execution-recording updates against a freshly created
context leave a history of length exactly 2. -/
theorem c7_context_invariants_witness :
    ∃ stN cN hN,
      runUpdates "c" (create_context [] "c" none "T0").2
        [([("last_test", Val.str "t1"), ("last_result", Val.bool true)],
          "T1"),
         ([("last_test", Val.str "t2"), ("last_result", Val.bool false)],
          "T2")] = some stN ∧
      alookup stN "c" = some cN ∧
      alookup cN "history" = some (Val.list hN) ∧
      hN.length = 2 := by
  obtain ⟨cN, hN, h1, h2, h3⟩ :=
    (c7_context_invariants "c").2.2.2.2
      [([("last_test", Val.str "t1"), ("last_result", Val.bool true)], "T1"),
       ([("last_test", Val.str "t2"), ("last_result", Val.bool false)], "T2")]
      (create_context [] "c" none "T0").2 (create_context [] "c" none "T0").1
      [] _ rfl rfl (by decide) rfl
  exact ⟨_, cN, hN, rfl, h1, h2, by simpa using h3⟩

/-! ### Claim C8 -/

/-- C8 counterexample: export-then-import does not reproduce an equivalent
record when the stored record's `id` field differs from its store key
(reachable via an `update_context` patch that sets `id`): import forcibly
rewrites `id` to the context id (src/context_manager.py line 105), so the
records differ at the key `id`, not only at `imported_at`. -/
theorem c8_counterexample :
    (update_context [] "c" [("id", Val.str "other")] "T1").map (fun q =>
      (alookup (export_context q.2 "c" "T2").1 "id",
       alookup (import_context (export_context q.2 "c" "T2").2 "c"
         (export_context q.2 "c" "T2").1 "T3").1 "id")) =
      some (some (Val.str "other"), some (Val.str "c")) ∧
    Val.str "other" ≠ Val.str "c" ∧ ("id" : String) ≠ "imported_at" := by
  refine ⟨rfl, ?_, by decide⟩
  intro h
  injection h with h
  exact absurd h (by decide)

/-- C8 (amended): `import(id, export(id))` reproduces a record equal to the
exported one at every key except the stamped `imported_at` marker and the
`id` field, which import forces to the context id; in particular, whenever
the exported record's `id` already equals its context id (as every record
created by the store itself has), the only difference is `imported_at`. -/
theorem c8_roundtrip (store : Store) (cid now now' : String) :
    ∃ ex exSt im imSt,
      export_context store cid now = (ex, exSt) ∧
      import_context exSt cid ex now' = (im, imSt) ∧
      (∀ k, k ≠ "imported_at" → k ≠ "id" → alookup im k = alookup ex k) ∧
      alookup im "id" = some (Val.str cid) ∧
      alookup im "imported_at" = some (Val.str now') ∧
      (alookup ex "id" = some (Val.str cid) →
        ∀ k, k ≠ "imported_at" → alookup im k = alookup ex k) ∧
      alookup imSt cid = some im := by
  have hmain : ∀ k, k ≠ "imported_at" → k ≠ "id" →
      alookup (aset (aset (export_context store cid now).1 "id"
        (Val.str cid)) "imported_at" (Val.str now')) k =
      alookup (export_context store cid now).1 k := by
    intro k h1 h2
    rw [alookup_aset_ne _ "imported_at" k _ h1,
      alookup_aset_ne _ "id" k _ h2]
  refine ⟨(export_context store cid now).1, (export_context store cid now).2,
    _, _, rfl, rfl, hmain, ?_, alookup_aset_self _ _ _, ?_,
    alookup_aset_self _ _ _⟩
  · rw [alookup_aset_ne _ "imported_at" "id" _ (by decide)]
    exact alookup_aset_self _ _ _
  · intro hid k hk
    by_cases hkid : k = "id"
    · subst hkid
      rw [alookup_aset_ne _ "imported_at" "id" _ (by decide),
        alookup_aset_self, hid]
    · exact hmain k hk hkid

/-- C8 witness: on a fresh store (whose created record's `id` equals its
key), the imported record agrees with the exported one at every key other
than `imported_at`. -/
theorem c8_roundtrip_witness :
    ∃ ex exSt im imSt,
      export_context [] "c" "T0" = (ex, exSt) ∧
      import_context exSt "c" ex "T1" = (im, imSt) ∧
      ∀ k, k ≠ "imported_at" → alookup im k = alookup ex k := by
  obtain ⟨ex, exSt, im, imSt, h1, h2, _, _, _, hcond, _⟩ :=
    c8_roundtrip [] "c" "T0" "T1"
  refine ⟨ex, exSt, im, imSt, h1, h2, hcond ?_⟩
  have hx : ex = (export_context [] "c" "T0").1 := by rw [h1]
  rw [hx]
  rfl

/-! ### Claim C9 -/

/-- Injective encoding of naturals into scenario texts (distinct lengths,
so distinct strings). -/
def natStr (n : Nat) : String := ⟨List.replicate n 'a'⟩

theorem natStr_injective : Function.Injective natStr := by
  intro a b h
  have h2 : (List.replicate a 'a').length = (List.replicate b 'a').length :=
    congrArg (fun s => s.data.length) h
  simpa using h2

/-- Whatever the string hash is, two distinct scenario texts share a session
id: the id is determined by the hash modulo 10000, which has only 10000
possible values, while there are infinitely many scenario texts. -/
theorem sessionId_collision (pyHash : String → Int) :
    ∃ s t : String, s ≠ t ∧ sessionId pyHash s = sessionId pyHash t := by
  have hmod : ∀ s : String,
      0 ≤ pyHash s % 10000 ∧ pyHash s % 10000 < 10000 := by
    intro s
    exact ⟨Int.emod_nonneg _ (by norm_num), Int.emod_lt_of_pos _ (by norm_num)⟩
  obtain ⟨a, b, hab, hfab⟩ :=
    Finite.exists_ne_map_eq_of_infinite
      (fun n : ℕ => (⟨(pyHash (natStr n) % 10000).toNat, by
        have := hmod (natStr n); omega⟩ : Fin 10000))
  refine ⟨natStr a, natStr b, fun h => hab (natStr_injective h), ?_⟩
  have hval : (pyHash (natStr a) % 10000).toNat =
      (pyHash (natStr b) % 10000).toNat := congrArg Fin.val hfab
  have ha := hmod (natStr a)
  have hb := hmod (natStr b)
  have heq : pyHash (natStr a) % 10000 = pyHash (natStr b) % 10000 := by
    omega
  unfold sessionId
  rw [heq]

/-- C9 counterexample: the claim's separation half — "distinct text yields a
distinct session id" — fails, exhibited here at a concrete hash oracle and
the distinct texts "a" and "b": both get the session id "scenario_0".  The
failure is not an artifact of the chosen oracle: `run_scenario` reduces the
hash modulo 10000, so by pigeonhole every possible string hash has two
distinct scenario texts sharing an id (the amended theorem's last
conjunct). -/
theorem c9_counterexample :
    ("a" : String) ≠ "b" ∧
    sessionId (fun _ => 0) "a" = sessionId (fun _ => 0) "b" :=
  ⟨by decide, rfl⟩

/-- C9 (amended): the session id is a deterministic function of the scenario
text — identical text always reuses the same id — and is determined by the
text's hash modulo 10000 alone, so any two texts whose hashes agree modulo
10000 share a session id, and such distinct texts exist for every hash
function; `run_scenario` accepts no caller-chosen session id. -/
theorem c9_sessionId (pyHash : String → Int) :
    (∀ s t : String, s = t → sessionId pyHash s = sessionId pyHash t) ∧
    (∀ s t : String, pyHash s % 10000 = pyHash t % 10000 →
      sessionId pyHash s = sessionId pyHash t) ∧
    (∃ s t : String, s ≠ t ∧ sessionId pyHash s = sessionId pyHash t) := by
  refine ⟨?_, ?_, sessionId_collision pyHash⟩
  · intro s t h
    rw [h]
  · intro s t h
    unfold sessionId
    rw [h]

/-- C9 witness: under the constant hash, two distinct texts get the same
session id. -/
theorem c9_sessionId_witness :
    sessionId (fun _ => 0) "alpha" = sessionId (fun _ => 0) "beta" :=
  (c9_sessionId (fun _ => 0)).2.1 "alpha" "beta" rfl

end Automator
